import Mathlib

/-!
Verification of the Dune→Postgres synchronization engine
(`data_integration`): a shallow embedding of the loader
(`utils/worker/pg_loader.py`), the remote-query executor
(`utils/worker/dune_extractor.py`), the worker
(`utils/worker/dune_to_pg_worker.py`) and the per-table orchestrator
(`pull_raw/__main__.py`), together with proofs about their behaviour.

Database effects are modelled as explicit state passing: a connection
carries the committed database state and the current (in-transaction)
state; `commit` publishes the current state, `rollback` restores the
committed one; DDL executed through the SQLAlchemy *engine* (a separate
autocommitting connection, as in `_create_table_from_dataframe`) updates
both at once.  Remote HTTP polling is modelled with an oracle giving the
service's response at each poll.
-/

namespace BitcoinDW

/-- A dynamically typed scalar cell, as held in a Dune result row or a
Postgres column (`NULL` included). -/
inductive Value
  | int (n : Int)
  | str (s : String)
  | bool (b : Bool)
  | null
  deriving DecidableEq, Repr

/-- A record: a mapping from column name to scalar, represented as an
association list (a Python dict / a table row). -/
abbrev Row := List (String × Value)

/-- Value of column `c` in row `r` (first binding wins, like a dict). -/
def lookupCol (r : Row) (c : String) : Option Value :=
  (r.find? (fun cv => cv.1 = c)).map (fun cv => cv.2)

/-- The tuple of key-column values of a row, used as the upsert conflict
key (`ON CONFLICT (k1, ..., kn)`). -/
def keyOf (keys : List String) (r : Row) : List (Option Value) :=
  keys.map (lookupCol r)

/-- Boolean test that two rows agree on every key column. -/
def keysMatch (keys : List String) (e r : Row) : Bool :=
  decide (keyOf keys e = keyOf keys r)

/-- One Postgres table: its column list, its unique constraint (if any;
tables created by `_create_table_from_dataframe` have none) and its rows. -/
structure TableData where
  cols : List String
  uniqueConstraint : Option (List String)
  rows : List Row
  deriving DecidableEq, Repr

/-- Lookup in an association list of tables keyed by (schema, table). -/
def findTable : List ((String × String) × TableData) → (String × String) → Option TableData
  | [], _ => none
  | t :: ts, id => if t.1 = id then some t.2 else findTable ts id

/-- Remove every binding of a table id from an association list. -/
def eraseTable : List ((String × String) × TableData) → (String × String) → List ((String × String) × TableData)
  | [], _ => []
  | t :: ts, id => if t.1 = id then eraseTable ts id else t :: eraseTable ts id

/-- The visible state of one database: its schemas and its tables. -/
structure DBState where
  schemas : List String
  tables : List ((String × String) × TableData)
  deriving DecidableEq, Repr

def DBState.getTable (s : DBState) (id : String × String) : Option TableData :=
  findTable s.tables id

def DBState.setTable (s : DBState) (id : String × String) (td : TableData) : DBState :=
  { s with tables := (id, td) :: eraseTable s.tables id }

def DBState.dropTable (s : DBState) (id : String × String) : DBState :=
  { s with tables := eraseTable s.tables id }

def DBState.addSchema (s : DBState) (sn : String) : DBState :=
  if sn ∈ s.schemas then s else { s with schemas := sn :: s.schemas }

/-- A SQLAlchemy connection: the committed database state and the state
as seen inside the connection's open transaction. -/
structure Conn where
  committed : DBState
  current : DBState
  deriving DecidableEq, Repr

/-- Observable events of one loader call, in order: transaction commits
and rollbacks, the logged warnings, and the staging-table drop. -/
inductive Ev
  | commit
  | rollback
  | warnNoKeys
  | warnNoData
  | dropTable
  deriving DecidableEq, Repr

abbrev Trace := List Ev

/-- `connection.commit()`: publish the current state. -/
def commitConn (c : Conn) : Conn :=
  { committed := c.current, current := c.current }

/-- `connection.rollback()`: discard uncommitted work. -/
def rollbackConn (c : Conn) : Conn :=
  { committed := c.committed, current := c.committed }

/-- The errors a load statement can raise in the model: a bulk insert
whose columns do not fit the target table, `ON CONFLICT` without a
matching unique constraint on the target, and an upsert whose staged
rows repeat a conflict key (Postgres: cannot affect row a second time). -/
inductive LoadErr
  | insertColumnMismatch
  | onConflictNoMatchingConstraint
  | duplicateStagedKeys
  deriving DecidableEq, Repr

/-- Result of one loader call (Python: normal return or raised error). -/
inductive LoadResult
  | ok
  | err (e : LoadErr)
  deriving DecidableEq, Repr

/-- Outcome of one loader call: result, final connection, event trace. -/
structure LoadOutcome where
  result : LoadResult
  conn : Conn
  trace : Trace
  deriving DecidableEq, Repr

/-- A pandas DataFrame: a column list and the row records. -/
structure DataFrame where
  cols : List String
  rows : List Row
  deriving DecidableEq, Repr

/-- `PgLoader._create_schema_if_not_exists`: `CREATE SCHEMA IF NOT
EXISTS` on the connection followed by `connection.commit()`, which also
publishes anything pending in the transaction. -/
def createSchemaIfNotExists (sn : String) (c : Conn) : Conn × Trace :=
  let k := c.current.addSchema sn
  ({ committed := k, current := k }, [Ev.commit])

/-- The table `PgLoader._create_table_from_dataframe` builds: the
DataFrame's columns, no constraints, no rows. -/
def inferredTable (df : DataFrame) : TableData :=
  { cols := df.cols, uniqueConstraint := none, rows := [] }

/-- `PgLoader._create_table_from_dataframe` with `checkfirst=True`: the
DDL runs through `self.connection.engine`, i.e. on a separate
autocommitting connection, so it lands in the committed state at once
(and is visible to the open transaction). -/
def createTableFromDataFrame (sn tn : String) (df : DataFrame) (c : Conn) : Conn :=
  if (c.committed.getTable (sn, tn)).isSome then c
  else
    { committed := c.committed.setTable (sn, tn) (inferredTable df),
      current := c.current.setTable (sn, tn) (inferredTable df) }

/-- `PgLoader._table_exists`: `information_schema` lookup through the
connection, hence against the transaction's view. -/
def tableExistsQ (sn tn : String) (c : Conn) : Bool :=
  (c.current.getTable (sn, tn)).isSome

/-- `TRUNCATE TABLE` executed on the connection (inside the
transaction).  Only reached after a positive existence check. -/
def truncateTable (sn tn : String) (c : Conn) : Conn :=
  match c.current.getTable (sn, tn) with
  | some td => { c with current := c.current.setTable (sn, tn) { td with rows := [] } }
  | none => c

/-- `df.to_sql(..., if_exists='append')` on the connection: appends the
DataFrame's rows, failing if the DataFrame has a column the target table
does not have. -/
def insertRows (sn tn : String) (df : DataFrame) (c : Conn) : Except LoadErr Conn :=
  match c.current.getTable (sn, tn) with
  | none => .error .insertColumnMismatch
  | some td =>
    if df.cols.all (fun col => decide (col ∈ td.cols)) then
      .ok { c with current := c.current.setTable (sn, tn) { td with rows := td.rows ++ df.rows } }
    else .error .insertColumnMismatch

/-- `df.to_sql(..., if_exists='replace')` on the connection: (re)create
the table from the DataFrame and fill it with the DataFrame's rows. -/
def writeReplaceTable (sn tn : String) (df : DataFrame) (c : Conn) : Conn :=
  let td : TableData := { cols := df.cols, uniqueConstraint := none, rows := df.rows }
  { c with current := c.current.setTable (sn, tn) td }

/-- The name `temp_{table}_{int(datetime.now().timestamp())}` of the
staging table, with the timestamp as a parameter. -/
def tempTableName (tn : String) (ts : Nat) : String :=
  ("temp_") ++ tn ++ ("_") ++ toString ts

/-- Update row `e` with the staged row `r` on every non-key column, as
the generated `DO UPDATE SET "c" = EXCLUDED."c"` clause does (columns
the staged row does not carry keep their value). -/
def updateNonKey (keys : List String) (e r : Row) : Row :=
  e.map (fun cv => if cv.1 ∈ keys then cv else (cv.1, (lookupCol r cv.1).getD cv.2))

/-- Effect of one staged row under `INSERT ... ON CONFLICT (keys) DO
UPDATE`: a key match updates the matching rows in place, a new key
appends the row. -/
def upsertRow (keys : List String) (existing : List Row) (r : Row) : List Row :=
  if existing.any (fun e => keysMatch keys e r) then
    existing.map (fun e => if keysMatch keys e r then updateNonKey keys e r else e)
  else existing ++ [r]

/-- Set-based merge of the staged rows into the existing rows, staged
rows processed in order. -/
def mergeRows (keys : List String) (existing staged : List Row) : List Row :=
  staged.foldl (upsertRow keys) existing

/-- `PgLoader._upsert_data`: write the DataFrame to a staging table
(`if_exists='replace'`), run the `INSERT ... SELECT ... ON CONFLICT
(unique_keys) DO UPDATE` merge, and — only after the merge succeeded —
drop the staging table.  The merge errors when the target has no unique
constraint on exactly the given keys, when a staged column is missing
from the target, or when staged rows repeat a conflict key.  (Rows whose
key columns are NULL are outside the regime modelled here.) -/
def upsertData (sn tn : String) (df : DataFrame) (keys : List String) (ts : Nat) (c : Conn) :
    LoadOutcome :=
  let tmp := tempTableName tn ts
  let c1 := writeReplaceTable sn tmp df c
  match c1.current.getTable (sn, tn) with
  | none => ⟨.err .insertColumnMismatch, c1, []⟩
  | some td =>
    if td.uniqueConstraint = some keys then
      if df.cols.all (fun col => decide (col ∈ td.cols)) then
        if (df.rows.map (keyOf keys)).Nodup then
          let merged : TableData := { td with rows := mergeRows keys td.rows df.rows }
          let c2 := { c1 with current := c1.current.setTable (sn, tn) merged }
          let c3 := { c2 with current := c2.current.dropTable (sn, tmp) }
          ⟨.ok, c3, [Ev.dropTable]⟩
        else ⟨.err .duplicateStagedKeys, c1, []⟩
      else ⟨.err .insertColumnMismatch, c1, []⟩
    else ⟨.err .onConflictNoMatchingConstraint, c1, []⟩

/-- `PgLoader.load_full_refresh`: ensure the schema (which commits),
create the table from the DataFrame if absent or truncate it otherwise,
bulk-insert the rows, and commit; on any exception roll back and
re-raise. -/
def loadFullRefresh (sn tn : String) (df : DataFrame) (c0 : Conn) : LoadOutcome :=
  let s := createSchemaIfNotExists sn c0
  let c1 := s.1
  if tableExistsQ sn tn c1 then
    match insertRows sn tn df (truncateTable sn tn c1) with
    | .ok c2 => ⟨.ok, commitConn c2, s.2 ++ [Ev.commit]⟩
    | .error e => ⟨.err e, rollbackConn c1, s.2 ++ [Ev.rollback]⟩
  else
    match insertRows sn tn df (createTableFromDataFrame sn tn df c1) with
    | .ok c2 => ⟨.ok, commitConn c2, s.2 ++ [Ev.commit]⟩
    | .error e => ⟨.err e, rollbackConn (createTableFromDataFrame sn tn df c1), s.2 ++ [Ev.rollback]⟩

/-- Python truthiness of the `unique_keys` argument (`None` and `[]`
are both falsy). -/
def pyTruthyKeys : Option (List String) → Bool
  | none => false
  | some l => !l.isEmpty

/-- `PgLoader.load_incremental`: with no unique keys, log the downgrade
and run a full refresh; otherwise ensure the schema (commit), then
either create-and-insert when the table is absent, or upsert through the
staging table; commit on success, roll back on any exception. -/
def loadIncremental (sn tn : String) (df : DataFrame) (uk : Option (List String)) (ts : Nat)
    (c0 : Conn) : LoadOutcome :=
  if pyTruthyKeys uk then
    let keys := uk.getD []
    let s := createSchemaIfNotExists sn c0
    let c1 := s.1
    if tableExistsQ sn tn c1 then
      let u := upsertData sn tn df keys ts c1
      match u.result with
      | .ok => ⟨.ok, commitConn u.conn, s.2 ++ u.trace ++ [Ev.commit]⟩
      | .err e => ⟨.err e, rollbackConn u.conn, s.2 ++ u.trace ++ [Ev.rollback]⟩
    else
      match insertRows sn tn df (createTableFromDataFrame sn tn df c1) with
      | .ok c2 => ⟨.ok, commitConn c2, s.2 ++ [Ev.commit]⟩
      | .error e => ⟨.err e, rollbackConn (createTableFromDataFrame sn tn df c1), s.2 ++ [Ev.rollback]⟩
  else
    let o := loadFullRefresh sn tn df c0
    ⟨o.result, o.conn, Ev.warnNoKeys :: o.trace⟩

/-- Ordering used by `SELECT MAX(col)` on the scalars of the model
(values of one column share a type in practice; across types an
arbitrary rank keeps the function total). -/
def Value.rank : Value → Nat
  | .null => 0
  | .bool _ => 1
  | .int _ => 2
  | .str _ => 3

def Value.leb : Value → Value → Bool
  | .int a, .int b => decide (a ≤ b)
  | .str a, .str b => decide (a ≤ b)
  | .bool a, .bool b => !a || b
  | x, y => decide (x.rank ≤ y.rank)

/-- `MAX("col")` over the rows: NULLs (and absent cells) are ignored;
an empty input yields SQL NULL, i.e. `none`. -/
def columnMax (col : String) (rows : List Row) : Option Value :=
  (rows.filterMap (fun r =>
    match lookupCol r col with
    | some Value.null => none
    | v => v)).foldl
    (fun acc v =>
      match acc with
      | none => some v
      | some m => some (if Value.leb m v then v else m))
    none

/-- `PgLoader.get_max_value`: `None` when the table does not exist,
otherwise the scalar of `SELECT MAX("column") FROM table`. -/
def getMaxValue (sn tn col : String) (c : Conn) : Option Value :=
  if tableExistsQ sn tn c then
    match c.current.getTable (sn, tn) with
    | some td => columnMax col td.rows
    | none => none
  else none

/-- Python truthiness of a scalar, as used by
`str(last_value) if last_value else None`. -/
def pyTruthyValue : Value → Bool
  | .int n => decide (n ≠ 0)
  | .str s => !s.isEmpty
  | .bool b => b
  | .null => false

/-- Python `str(...)` on a scalar. -/
def pyStrValue : Value → String
  | .int n => toString n
  | .str s => s
  | .bool b => if b then ("True") else ("False")
  | .null => ("None")

/-- The path `DuneBitcoinPipeline.sync_table_incremental` takes after
resolving the watermark. -/
inductive SyncPath
  | fullRefresh (queryParameters : Option String)
  | incrementalFetch (queryParameters : Option String) (incrementalValue : Value)
  deriving DecidableEq, Repr

/-- Watermark resolution of `sync_table_incremental`: `get_max_value` of
the incremental column; `None` downgrades to the full-refresh path (with
no query parameters), otherwise the incremental fetch runs with
`str(last_value) if last_value else None` as the parameter. -/
def syncTableIncrementalPath (sn tn incrementalColumn : String) (c : Conn) : SyncPath :=
  match getMaxValue sn tn incrementalColumn c with
  | none => .fullRefresh none
  | some v => .incrementalFetch (if pyTruthyValue v then some (pyStrValue v) else none) v

/-- One response of `GET /execution/{id}/results`: the reported state
string and the `result.rows` payload. -/
structure DuneResponse where
  state : String
  rows : List Row
  deriving DecidableEq, Repr

/-- Result of `DuneExtractor.get_results`: the rows on
`QUERY_STATE_COMPLETED`, the `RuntimeError` on `QUERY_STATE_FAILED`, the
`TimeoutError` (carrying the elapsed time at which it was raised), or
divergence when the fuel is exhausted (proved unreachable below). -/
inductive DuneResult
  | ok (rows : List Row)
  | failed
  | timeout (elapsed : Nat)
  | diverge
  deriving DecidableEq, Repr

/-- The polling loop of `DuneExtractor.get_results`.  `respond n` is the
service's response to the `n`-th poll; after `n` sleeps the elapsed time
is `n * poll` (polling requests themselves are instantaneous in the
model).  The timeout check `elapsed > max_wait_time` runs before every
poll; a non-terminal state sleeps one poll interval and re-polls. -/
def getResultsLoop (respond : Nat → DuneResponse) (maxWait poll : Nat) : Nat → Nat → DuneResult
  | 0, _ => .diverge
  | fuel + 1, n =>
    if maxWait < n * poll then .timeout (n * poll)
    else if (respond n).state = ("QUERY_STATE_COMPLETED") then .ok (respond n).rows
    else if (respond n).state = ("QUERY_STATE_FAILED") then .failed
    else getResultsLoop respond maxWait poll fuel (n + 1)

/-- `DuneExtractor.get_results` with `max_wait_time = maxWait` and
`poll_interval = poll`.  The fuel `maxWait + 2` dominates the number of
polls whenever `poll ≥ 1`. -/
def getResults (respond : Nat → DuneResponse) (maxWait poll : Nat) : DuneResult :=
  getResultsLoop respond maxWait poll (maxWait + 2) 0

/-- The JSON body `DuneExtractor.execute_query` posts to
`/query/{id}/execute`: empty for a falsy `parameters` argument, and
otherwise `{"query_parameters": {"date": parameters}}` — the parameter
name is hardcoded to `date`. -/
def executeQueryPayload (parameters : Option String) : List (String × List (String × String)) :=
  match parameters with
  | none => []
  | some p => if p.isEmpty then [] else [(("query_parameters"), [(("date"), p)])]

/-- Modelled from the spec: the payload §6 describes for `POST
/query/{id}/execute`, carrying the caller's name→value mapping
verbatim under `query_parameters`.  (The source accepts only a single
string value, so this ideal payload builder exists in the spec alone.) -/
def executeQueryPayloadSpec (params : List (String × String)) : List (String × List (String × String)) :=
  if params.isEmpty then [] else [(("query_parameters"), params)]

/-- `pd.DataFrame(list_of_dicts)`: the column list is the union of the
records' keys in order of first appearance. -/
def columnsOfRecords (data : List Row) : List String :=
  data.foldl (fun acc r => acc ++ ((r.map (fun cv => cv.1)).filter (fun c => decide (c ∉ acc)))) []

def dataFrameOfRecords (data : List Row) : DataFrame :=
  { cols := columnsOfRecords data, rows := data }

/-- The two load strategies `DuneToPgWorker.load_to_postgres`
dispatches on. -/
inductive LoadStrategy
  | fullRefresh
  | incrementalValue
  deriving DecidableEq, Repr

/-- `DuneToPgWorker.load_to_postgres`: with no data it logs a warning
and returns without touching the database; otherwise it builds the
DataFrame and runs the strategy's loader. -/
def loadToPostgres (sn tn : String) (data : List Row) (uk : Option (List String))
    (strategy : LoadStrategy) (ts : Nat) (c : Conn) : LoadOutcome :=
  if data.isEmpty then ⟨.ok, c, [Ev.warnNoData]⟩
  else
    match strategy with
    | .fullRefresh => loadFullRefresh sn tn (dataFrameOfRecords data) c
    | .incrementalValue => loadIncremental sn tn (dataFrameOfRecords data) uk ts c

/-- One entry of the `tables_to_sync` configuration, read with
`dict.get` (absent keys give `None`). -/
structure TableConfig where
  name : Option String
  qid : Option Nat
  sync_type : Option String
  source_unique_keys : Option (List String)
  incremental_column : Option String
  query_parameters : Option String
  deriving DecidableEq, Repr

/-- Outcome of one table of the pipeline run: the success log line, or
the failure log line of the per-table `except` handler. -/
inductive JobOutcome
  | success
  | failure
  deriving DecidableEq, Repr

/-- The per-table body of `DuneBitcoinPipeline.run_pipeline`:
`full_refresh` dispatches to `sync_table_full_refresh`, `None` and
`sync_incremental` to `sync_table_incremental`, anything else raises
`ValueError`; any exception is caught by the per-table handler, logged,
and the loop continues.  The two sync methods perform network and
database I/O and are abstracted as success oracles. -/
def processTable (runFull runIncr : TableConfig → Bool) (t : TableConfig) : JobOutcome :=
  if t.sync_type = some ("full_refresh") then
    if runFull t then .success else .failure
  else if t.sync_type = none ∨ t.sync_type = some ("sync_incremental") then
    if runIncr t then .success else .failure
  else .failure

/-- `DuneBitcoinPipeline.run_pipeline` over an already retrieved table
list: every descriptor is processed in order, each yielding its logged
outcome; a per-table failure never aborts the batch. -/
def runPipeline (runFull runIncr : TableConfig → Bool) (tables : List TableConfig) :
    List (Option String × JobOutcome) :=
  tables.map (fun t => (t.name, processTable runFull runIncr t))

/-! ### State lemmas -/

theorem findTable_cons (t : (String × String) × TableData) (ts : List ((String × String) × TableData))
    (id : String × String) : findTable (t :: ts) id = if t.1 = id then some t.2 else findTable ts id :=
  rfl

theorem eraseTable_cons (t : (String × String) × TableData) (ts : List ((String × String) × TableData))
    (id : String × String) :
    eraseTable (t :: ts) id = if t.1 = id then eraseTable ts id else t :: eraseTable ts id :=
  rfl

theorem findTable_eraseTable (l : List ((String × String) × TableData)) (id id2 : String × String)
    (h : id2 ≠ id) : findTable (eraseTable l id) id2 = findTable l id2 := by
  induction l with
  | nil => rfl
  | cons t ts ih =>
    rw [eraseTable_cons, findTable_cons]
    by_cases ht : t.1 = id
    · rw [if_pos ht, ih, if_neg (fun h2 => h (by rw [← h2, ht]))]
    · rw [if_neg ht, findTable_cons]
      by_cases h2 : t.1 = id2
      · rw [if_pos h2, if_pos h2]
      · rw [if_neg h2, if_neg h2, ih]

theorem findTable_eraseTable_self (l : List ((String × String) × TableData)) (id : String × String) :
    findTable (eraseTable l id) id = none := by
  induction l with
  | nil => rfl
  | cons t ts ih =>
    rw [eraseTable_cons]
    by_cases ht : t.1 = id
    · rw [if_pos ht]; exact ih
    · rw [if_neg ht, findTable_cons, if_neg ht]; exact ih

theorem getTable_setTable_self (s : DBState) (id : String × String) (td : TableData) :
    (s.setTable id td).getTable id = some td := by
  show findTable ((id, td) :: eraseTable s.tables id) id = some td
  rw [findTable_cons, if_pos rfl]

theorem getTable_setTable_ne (s : DBState) (id id2 : String × String) (td : TableData)
    (h : id2 ≠ id) : (s.setTable id td).getTable id2 = s.getTable id2 := by
  show findTable ((id, td) :: eraseTable s.tables id) id2 = findTable s.tables id2
  rw [findTable_cons, if_neg (fun h2 => h (by rw [← h2]))]
  exact findTable_eraseTable _ _ _ h

theorem getTable_dropTable_self (s : DBState) (id : String × String) :
    (s.dropTable id).getTable id = none :=
  findTable_eraseTable_self _ _

theorem getTable_dropTable_ne (s : DBState) (id id2 : String × String) (h : id2 ≠ id) :
    (s.dropTable id).getTable id2 = s.getTable id2 :=
  findTable_eraseTable _ _ _ h

theorem getTable_addSchema (s : DBState) (sn : String) (id : String × String) :
    (s.addSchema sn).getTable id = s.getTable id := by
  unfold DBState.addSchema
  split <;> rfl

theorem tempTableName_length (tn : String) (ts : Nat) :
    (tempTableName tn ts).length = 6 + tn.length + (toString ts).length := by
  unfold tempTableName
  rw [String.length_append, String.length_append, String.length_append]
  have h1 : (("temp_") : String).length = 5 := rfl
  have h2 : (("_") : String).length = 1 := rfl
  rw [h1, h2]
  omega

theorem tempTableName_ne (tn : String) (ts : Nat) : tempTableName tn ts ≠ tn := by
  intro h
  have hl := congrArg String.length h
  rw [tempTableName_length] at hl
  omega

theorem any_congr_on {α : Type} (l : List α) (p q : α → Bool) (h : ∀ a ∈ l, p a = q a) :
    l.any p = l.any q := by
  induction l with
  | nil => rfl
  | cons a tl ih =>
    simp only [List.any_cons]
    rw [h a (List.mem_cons_self a tl), ih (fun b hb => h b (List.mem_cons_of_mem _ hb))]

/-! ### Merge characterization -/

theorem lookupCol_map_fixing (g : String × Value → String × Value) (e : Row) (k : String)
    (hg : ∀ cv, (g cv).1 = cv.1) (hfix : ∀ cv, cv.1 = k → g cv = cv) :
    lookupCol (e.map g) k = lookupCol e k := by
  induction e with
  | nil => rfl
  | cons cv tl ih =>
    show lookupCol (g cv :: tl.map g) k = lookupCol (cv :: tl) k
    unfold lookupCol
    rw [List.find?_cons, List.find?_cons]
    by_cases h : cv.1 = k
    · rw [hfix cv h, decide_eq_true h]
    · rw [decide_eq_false (fun h2 : (g cv).1 = k => h (hg cv ▸ h2)), decide_eq_false h]
      exact ih

theorem keyOf_updateNonKey (keys : List String) (e r : Row) :
    keyOf keys (updateNonKey keys e r) = keyOf keys e := by
  unfold keyOf updateNonKey
  apply List.map_congr_left
  intro k hk
  apply lookupCol_map_fixing
  · intro cv; split <;> rfl
  · intro cv hcv
    have : cv.1 ∈ keys := hcv ▸ hk
    exact if_pos this

theorem keysMatch_updateNonKey (keys : List String) (e r r2 : Row) :
    keysMatch keys (updateNonKey keys e r) r2 = keysMatch keys e r2 := by
  unfold keysMatch
  rw [keyOf_updateNonKey]

/-- The per-existing-row view of the merged table. -/
def matchStaged (keys : List String) (staged : List Row) (e : Row) : Row :=
  match staged.find? (fun r => keysMatch keys e r) with
  | some r => updateNonKey keys e r
  | none => e

/-- A staged row whose key matches no existing row. -/
def isNewKey (keys : List String) (existing : List Row) (r : Row) : Bool :=
  !(existing.any (fun e => keysMatch keys e r))

/-- What the upsert is claimed to produce: every existing row updated by
its key-matching staged row (if any), followed by the staged rows whose
keys are new, in order. -/
def mergedSpecRows (keys : List String) (existing staged : List Row) : List Row :=
  existing.map (matchStaged keys staged) ++ staged.filter (isNewKey keys existing)

theorem keysMatch_trans_left (keys : List String) (e r r2 : Row)
    (h : keysMatch keys e r = true) : keysMatch keys e r2 = keysMatch keys r r2 := by
  unfold keysMatch at *
  rw [decide_eq_true_eq] at h
  rw [h]

theorem mergeRows_matched_step (keys : List String) (r : Row) (rest existing : List Row)
    (hmatch : existing.any (fun e => keysMatch keys e r) = true)
    (hrrest : ∀ r2 ∈ rest, keysMatch keys r r2 = false) :
    mergedSpecRows keys
      (existing.map (fun e => if keysMatch keys e r then updateNonKey keys e r else e)) rest
      = mergedSpecRows keys existing (r :: rest) := by
  unfold mergedSpecRows
  have hmap : (existing.map (fun e => if keysMatch keys e r then updateNonKey keys e r else e)).map
      (matchStaged keys rest) = existing.map (matchStaged keys (r :: rest)) := by
    rw [List.map_map]
    apply List.map_congr_left
    intro e _
    simp only [Function.comp]
    by_cases hm : keysMatch keys e r = true
    · rw [if_pos hm]
      have hnone : rest.find? (fun r2 => keysMatch keys (updateNonKey keys e r) r2) = none := by
        apply List.find?_eq_none.mpr
        intro r2 hr2
        rw [keysMatch_updateNonKey, keysMatch_trans_left keys e r r2 hm, hrrest r2 hr2]
        exact Bool.false_ne_true
      have hcons : matchStaged keys (r :: rest) e = updateNonKey keys e r := by
        unfold matchStaged
        rw [List.find?_cons, hm]
      rw [hcons]
      unfold matchStaged
      rw [hnone]
    · rw [if_neg hm]
      unfold matchStaged
      rw [List.find?_cons]
      have hm' : keysMatch keys e r = false := by
        cases hb : keysMatch keys e r
        · rfl
        · exact absurd hb hm
      rw [hm']
  have hfil : rest.filter (isNewKey keys
      (existing.map (fun e => if keysMatch keys e r then updateNonKey keys e r else e)))
      = rest.filter (isNewKey keys existing) := by
    apply List.filter_congr
    intro r2 _
    unfold isNewKey
    rw [List.any_map]
    congr 1
    apply any_congr_on
    intro e _
    simp only [Function.comp]
    by_cases hm : keysMatch keys e r = true
    · rw [if_pos hm, keysMatch_updateNonKey]
    · rw [if_neg hm]
  have hhead : (r :: rest).filter (isNewKey keys existing) = rest.filter (isNewKey keys existing) := by
    rw [List.filter_cons]
    have : isNewKey keys existing r = false := by
      unfold isNewKey
      rw [hmatch]
      rfl
    rw [this]
    simp
  rw [hmap, hfil, hhead]

theorem mergeRows_new_step (keys : List String) (r : Row) (rest existing : List Row)
    (hmatch : existing.any (fun e => keysMatch keys e r) = false)
    (hrrest : ∀ r2 ∈ rest, keysMatch keys r r2 = false) :
    mergedSpecRows keys (existing ++ [r]) rest = mergedSpecRows keys existing (r :: rest) := by
  unfold mergedSpecRows
  have hnomatch : ∀ e ∈ existing, keysMatch keys e r = false := by
    intro e he
    cases hb : keysMatch keys e r
    · rfl
    · exact absurd (List.any_eq_true.mpr ⟨e, he, hb⟩) (by rw [hmatch]; exact Bool.false_ne_true)
  have hmap : (existing ++ [r]).map (matchStaged keys rest)
      = existing.map (matchStaged keys (r :: rest)) ++ [r] := by
    rw [List.map_append]
    congr 1
    · apply List.map_congr_left
      intro e he
      unfold matchStaged
      rw [List.find?_cons, hnomatch e he]
    · simp only [List.map_cons, List.map_nil]
      unfold matchStaged
      have : rest.find? (fun r2 => keysMatch keys r r2) = none := by
        apply List.find?_eq_none.mpr
        intro r2 hr2
        rw [hrrest r2 hr2]
        exact Bool.false_ne_true
      rw [this]
  have hfil : rest.filter (isNewKey keys (existing ++ [r])) = rest.filter (isNewKey keys existing) := by
    apply List.filter_congr
    intro r2 hr2
    unfold isNewKey
    rw [List.any_append]
    have : [r].any (fun e => keysMatch keys e r2) = false := by
      simp only [List.any_cons, List.any_nil, Bool.or_false]
      exact hrrest r2 hr2
    rw [this, Bool.or_false]
  have hhead : (r :: rest).filter (isNewKey keys existing)
      = r :: rest.filter (isNewKey keys existing) := by
    rw [List.filter_cons]
    have : isNewKey keys existing r = true := by
      unfold isNewKey
      rw [hmatch]
      rfl
    rw [this]
    simp
  rw [hmap, hfil, hhead, List.append_assoc]
  rfl

theorem mergeRows_characterization (keys : List String) (staged existing : List Row)
    (hst : (staged.map (keyOf keys)).Nodup) :
    mergeRows keys existing staged = mergedSpecRows keys existing staged := by
  induction staged generalizing existing with
  | nil =>
    unfold mergeRows mergedSpecRows
    rw [List.foldl_nil, List.filter_nil, List.append_nil]
    induction existing with
    | nil => rfl
    | cons e tl ihe =>
      rw [List.map_cons, show matchStaged keys [] e = e from rfl, ← ihe]
  | cons r rest ih =>
    rw [List.map_cons, List.nodup_cons] at hst
    have hst' : (rest.map (keyOf keys)).Nodup := hst.2
    have hrrest : ∀ r2 ∈ rest, keysMatch keys r r2 = false := by
      intro r2 hr2
      cases hb : keysMatch keys r r2
      · rfl
      · exfalso
        apply hst.1
        rw [List.mem_map]
        exact ⟨r2, hr2, ((decide_eq_true_eq).mp hb).symm⟩
    show mergeRows keys (upsertRow keys existing r) rest = _
    rw [ih _ hst']
    unfold upsertRow
    cases hmatch : existing.any (fun e => keysMatch keys e r) with
    | true =>
      rw [if_pos rfl]
      exact mergeRows_matched_step keys r rest existing hmatch hrrest
    | false =>
      rw [if_neg Bool.false_ne_true]
      exact mergeRows_new_step keys r rest existing hmatch hrrest

/-! ### Polling loop lemmas -/

/-- Whether a response state is one of the two terminal states. -/
def DuneResponse.isTerminal (resp : DuneResponse) : Bool :=
  decide (resp.state = ("QUERY_STATE_COMPLETED")) || decide (resp.state = ("QUERY_STATE_FAILED"))

theorem getResultsLoop_succ (respond : Nat → DuneResponse) (maxWait poll fuel n : Nat) :
    getResultsLoop respond maxWait poll (fuel + 1) n =
      if maxWait < n * poll then .timeout (n * poll)
      else if (respond n).state = ("QUERY_STATE_COMPLETED") then .ok (respond n).rows
      else if (respond n).state = ("QUERY_STATE_FAILED") then .failed
      else getResultsLoop respond maxWait poll fuel (n + 1) :=
  rfl

theorem timeout_elapsed_bound (maxWait poll n : Nat)
    (hinv : n = 0 ∨ (n - 1) * poll ≤ maxWait) (hgt : maxWait < n * poll) :
    n * poll ≤ maxWait + poll := by
  rcases hinv with h0 | hprev
  · subst h0
    simp at hgt
  · rcases Nat.eq_zero_or_pos n with h0 | hpos
    · subst h0
      simp at hgt
    · have h1 : poll ≤ n * poll := Nat.le_mul_of_pos_left poll hpos
      have h2 : n * poll = (n - 1) * poll + poll := by
        rw [Nat.sub_one_mul]
        omega
      omega

theorem getResultsLoop_all_pending (respond : Nat → DuneResponse) (maxWait poll : Nat)
    (hpoll : 0 < poll) (hnt : ∀ n, (respond n).isTerminal = false) :
    ∀ fuel n, maxWait + 1 ≤ fuel + n * poll → (n = 0 ∨ (n - 1) * poll ≤ maxWait) →
      ∃ e, getResultsLoop respond maxWait poll (fuel + 1) n = .timeout e ∧
        maxWait < e ∧ e ≤ maxWait + poll := by
  intro fuel
  induction fuel with
  | zero =>
    intro n hle hinv
    have hgt : maxWait < n * poll := by omega
    exact ⟨n * poll, by rw [getResultsLoop_succ, if_pos hgt], hgt,
      timeout_elapsed_bound maxWait poll n hinv hgt⟩
  | succ fuel ih =>
    intro n hle hinv
    by_cases hgt : maxWait < n * poll
    · exact ⟨n * poll, by rw [getResultsLoop_succ, if_pos hgt], hgt,
        timeout_elapsed_bound maxWait poll n hinv hgt⟩
    · have hpend := hnt n
      unfold DuneResponse.isTerminal at hpend
      rw [Bool.or_eq_false_iff, decide_eq_false_iff_not, decide_eq_false_iff_not] at hpend
      rw [getResultsLoop_succ, if_neg hgt, if_neg hpend.1, if_neg hpend.2]
      apply ih
      · have hsm : (n + 1) * poll = n * poll + poll := Nat.succ_mul n poll
        omega
      · right
        simp only [Nat.add_sub_cancel]
        omega

/-- C3: if the service never reports a terminal state, `get_results`
raises the timeout error, at an elapsed time of more than `maxWait` but
no more than `maxWait` plus one poll interval; moreover the elapsed time
is checked against `maxWait` before every poll: once past the deadline
the loop times out without even consulting the service's response. -/
theorem get_results_timeout_bound (respond : Nat → DuneResponse) (maxWait poll : Nat)
    (hpoll : 0 < poll) (hnt : ∀ n, (respond n).isTerminal = false) :
    (∃ e, getResults respond maxWait poll = .timeout e ∧ maxWait < e ∧ e ≤ maxWait + poll) ∧
    (∀ (respond2 : Nat → DuneResponse) (fuel n : Nat), maxWait < n * poll →
      getResultsLoop respond2 maxWait poll (fuel + 1) n = .timeout (n * poll)) := by
  constructor
  · unfold getResults
    exact getResultsLoop_all_pending respond maxWait poll hpoll hnt (maxWait + 1) 0
      (by omega) (Or.inl rfl)
  · intro respond2 fuel n hgt
    rw [getResultsLoop_succ, if_pos hgt]

/-- Witness for C3 at the source defaults `max_wait_time = 300`,
`poll_interval = 5`, against a service that always answers with a
non-terminal state. -/
def alwaysExecuting : Nat → DuneResponse :=
  fun _ => { state := ("QUERY_STATE_EXECUTING"), rows := [] }

theorem get_results_timeout_bound_witness :
    0 < 5 ∧
    (∃ e, getResults alwaysExecuting 300 5 = .timeout e ∧ 300 < e ∧ e ≤ 300 + 5) :=
  ⟨by decide,
   (get_results_timeout_bound alwaysExecuting 300 5 (by decide) (fun _ => rfl)).1⟩

/-! ### Concrete sample states shared by the witnesses -/

/-- An empty target database with a clean connection. -/
def emptyConn : Conn :=
  { committed := { schemas := [], tables := [] }, current := { schemas := [], tables := [] } }

/-- A two-row staged DataFrame: one row matching key 1, one new key 2. -/
def sampleDF : DataFrame :=
  { cols := [("id"), ("v")],
    rows := [[(("id"), Value.int 1), (("v"), Value.int 99)],
             [(("id"), Value.int 2), (("v"), Value.int 5)]] }

/-- A target table keyed by `id`, holding one row with key 1. -/
def sampleTableKeyed : TableData :=
  { cols := [("id"), ("v")], uniqueConstraint := some [("id")],
    rows := [[(("id"), Value.int 1), (("v"), Value.int 10)]] }

/-- The same table without a unique constraint (as
`_create_table_from_dataframe` would create it). -/
def sampleTableBare : TableData :=
  { cols := [("id"), ("v")], uniqueConstraint := none,
    rows := [[(("id"), Value.int 1), (("v"), Value.int 10)]] }

/-- A clean connection to a database holding the keyed sample table. -/
def sampleConnKeyed : Conn :=
  { committed := { schemas := [("bitcoin")], tables := [((("bitcoin"), ("prices")), sampleTableKeyed)] },
    current := { schemas := [("bitcoin")], tables := [((("bitcoin"), ("prices")), sampleTableKeyed)] } }

/-- A clean connection to a database holding the constraint-less table. -/
def sampleConnBare : Conn :=
  { committed := { schemas := [("bitcoin")], tables := [((("bitcoin"), ("prices")), sampleTableBare)] },
    current := { schemas := [("bitcoin")], tables := [((("bitcoin"), ("prices")), sampleTableBare)] } }

/-! ### C8: missing unique keys downgrade to full refresh -/

/-- C8: with an empty or absent `unique_keys` list, `load_incremental`
performs exactly what `load_full_refresh` of the same DataFrame
performs — same result, same final connection — and prepends the logged
downgrade warning to the trace. -/
theorem load_incremental_no_keys_fallback (sn tn : String) (df : DataFrame)
    (uk : Option (List String)) (ts : Nat) (c0 : Conn)
    (h : pyTruthyKeys uk = false) :
    loadIncremental sn tn df uk ts c0 =
      { result := (loadFullRefresh sn tn df c0).result,
        conn := (loadFullRefresh sn tn df c0).conn,
        trace := Ev.warnNoKeys :: (loadFullRefresh sn tn df c0).trace } := by
  unfold loadIncremental
  rw [h, if_neg Bool.false_ne_true]

theorem load_incremental_no_keys_fallback_witness :
    pyTruthyKeys none = false ∧
    loadIncremental ("bitcoin") ("prices") sampleDF none 0 sampleConnKeyed =
      { result := (loadFullRefresh ("bitcoin") ("prices") sampleDF sampleConnKeyed).result,
        conn := (loadFullRefresh ("bitcoin") ("prices") sampleDF sampleConnKeyed).conn,
        trace := Ev.warnNoKeys ::
          (loadFullRefresh ("bitcoin") ("prices") sampleDF sampleConnKeyed).trace } :=
  ⟨rfl, load_incremental_no_keys_fallback ("bitcoin") ("prices") sampleDF none 0 sampleConnKeyed rfl⟩

/-! ### C6: watermark fallback -/

/-- C6: `get_max_value` returns `None` whenever the target table does
not exist, and whenever it returns `None` the incremental sync takes the
full-refresh path (with no query parameter) instead of the incremental
fetch. -/
theorem watermark_fallback (sn tn col : String) (c : Conn) :
    (tableExistsQ sn tn c = false → getMaxValue sn tn col c = none) ∧
    (getMaxValue sn tn col c = none →
      syncTableIncrementalPath sn tn col c = .fullRefresh none) := by
  constructor
  · intro h
    unfold getMaxValue
    rw [h, if_neg Bool.false_ne_true]
  · intro h
    unfold syncTableIncrementalPath
    rw [h]

theorem watermark_fallback_witness :
    tableExistsQ ("bitcoin") ("prices") emptyConn = false ∧
    getMaxValue ("bitcoin") ("prices") ("date") emptyConn = none ∧
    syncTableIncrementalPath ("bitcoin") ("prices") ("date") emptyConn = .fullRefresh none := by
  refine ⟨rfl, ?_, ?_⟩
  · exact (watermark_fallback ("bitcoin") ("prices") ("date") emptyConn).1 rfl
  · exact (watermark_fallback ("bitcoin") ("prices") ("date") emptyConn).2
      ((watermark_fallback ("bitcoin") ("prices") ("date") emptyConn).1 rfl)

/-! ### C9: zero-record full refresh -/

/-- C9 counterexample: a full-refresh load through the worker with zero
records does NOT create the target table — on an empty database the call
returns successfully and the table still does not exist afterwards,
because `load_to_postgres` returns at its `if not data` guard. -/
theorem load_to_postgres_empty_skips_creation :
    (loadToPostgres ("bitcoin") ("prices") [] (some [("id")]) .fullRefresh 0 emptyConn).result
      = .ok ∧
    tableExistsQ ("bitcoin") ("prices")
      (loadToPostgres ("bitcoin") ("prices") [] (some [("id")]) .fullRefresh 0 emptyConn).conn
      = false := by
  decide

/-- C9 amended: a load through the worker whose RowSet has zero records
performs no database work at all: it logs the no-data warning and
returns with the connection untouched (no schema or table DDL, no
insert), for either strategy. -/
theorem load_to_postgres_empty_noop (sn tn : String) (uk : Option (List String))
    (strategy : LoadStrategy) (ts : Nat) (c : Conn) :
    loadToPostgres sn tn [] uk strategy ts c = ⟨.ok, c, [Ev.warnNoData]⟩ :=
  rfl

/-! ### C10: query parameter payload -/

/-- C10 counterexample: the execute payload never carries a
caller-chosen parameter name: a non-empty parameters argument is sent
under the hardcoded name `date`, and no input to `execute_query` can
produce the spec's payload for the mapping `height ↦ 42`. -/
theorem execute_query_hardcodes_date_name :
    executeQueryPayload (some ("42")) = [(("query_parameters"), [(("date"), ("42"))])] ∧
    executeQueryPayloadSpec [(("height"), ("42"))]
      = [(("query_parameters"), [(("height"), ("42"))])] ∧
    (∀ p : Option String,
      executeQueryPayload p ≠ executeQueryPayloadSpec [(("height"), ("42"))]) := by
  refine ⟨rfl, rfl, ?_⟩
  intro p
  match p with
  | none => decide
  | some s =>
    show (if s.isEmpty = true then []
      else [(("query_parameters"), [(("date"), s)])]) ≠ executeQueryPayloadSpec [(("height"), ("42"))]
    by_cases hs : s.isEmpty = true
    · rw [if_pos hs]
      decide
    · rw [if_neg hs]
      intro h
      rw [show executeQueryPayloadSpec [(("height"), ("42"))]
        = [(("query_parameters"), [(("height"), ("42"))])] from rfl] at h
      injection h with h1 h2
      injection h1 with h3 h4
      injection h4 with h5 h6
      injection h5 with h7 h8
      exact absurd h7 (by decide)

/-- C10 amended: for every non-empty string `parameters` argument, the
payload posted to the execute endpoint is exactly
`{"query_parameters": {"date": parameters}}` — the single value the
caller supplies, under the hardcoded parameter name `date`; the caller
cannot supply parameter names. -/
theorem execute_query_payload_fixed_name (p : String) (hp : p.isEmpty = false) :
    executeQueryPayload (some p) = [(("query_parameters"), [(("date"), p)])] := by
  show (if p.isEmpty = true then []
    else [(("query_parameters"), [(("date"), p)])]) = [(("query_parameters"), [(("date"), p)])]
  rw [hp, if_neg Bool.false_ne_true]

theorem execute_query_payload_fixed_name_witness :
    String.isEmpty ("42") = false ∧
    executeQueryPayload (some ("42")) = [(("query_parameters"), [(("date"), ("42"))])] :=
  ⟨rfl, execute_query_payload_fixed_name ("42") rfl⟩

/-! ### C7: partial-failure isolation -/

/-- C7: if exactly the `i`-th descriptor's job fails (all others
succeed), the pipeline still produces an outcome for every descriptor —
the batch never raises for a per-table failure — with every other job
run to completion and reported successful, and exactly job `i` reported
failed. -/
theorem run_pipeline_partial_failure_isolation
    (runFull runIncr : TableConfig → Bool) (tables : List TableConfig) (i : Nat)
    (ti : TableConfig) (hgi : tables[i]? = some ti)
    (hfail : processTable runFull runIncr ti = .failure)
    (hok : ∀ j t, j ≠ i → tables[j]? = some t → processTable runFull runIncr t = .success) :
    (runPipeline runFull runIncr tables).length = tables.length ∧
    (runPipeline runFull runIncr tables)[i]? = some (ti.name, .failure) ∧
    (∀ j t, j ≠ i → tables[j]? = some t →
      (runPipeline runFull runIncr tables)[j]? = some (t.name, .success)) := by
  refine ⟨List.length_map tables _, ?_, ?_⟩
  · unfold runPipeline
    rw [List.getElem?_map, hgi]
    show some (ti.name, processTable runFull runIncr ti) = _
    rw [hfail]
  · intro j t hj hg
    unfold runPipeline
    rw [List.getElem?_map, hg]
    show some (t.name, processTable runFull runIncr t) = _
    rw [hok j t hj hg]

/-- A sample batch of three full-refresh descriptors. -/
def sampleCfg (nm : String) : TableConfig :=
  { name := some nm, qid := some 1, sync_type := some ("full_refresh"),
    source_unique_keys := none, incremental_column := none, query_parameters := none }

def sampleTables : List TableConfig :=
  [sampleCfg ("t1"), sampleCfg ("t2"), sampleCfg ("t3")]

/-- A sync-job oracle under which exactly the table named `t2` fails. -/
def failT2 : TableConfig → Bool :=
  fun t => decide (t.name ≠ some ("t2"))

theorem run_pipeline_partial_failure_isolation_witness :
    sampleTables[1]? = some (sampleCfg ("t2")) ∧
    processTable failT2 failT2 (sampleCfg ("t2")) = .failure ∧
    (runPipeline failT2 failT2 sampleTables).length = sampleTables.length ∧
    (runPipeline failT2 failT2 sampleTables)[1]? = some (some ("t2"), .failure) ∧
    (runPipeline failT2 failT2 sampleTables)[0]? = some (some ("t1"), .success) ∧
    (runPipeline failT2 failT2 sampleTables)[2]? = some (some ("t3"), .success) := by
  have hok : ∀ j t, j ≠ 1 → sampleTables[j]? = some t →
      processTable failT2 failT2 t = .success := by
    intro j t hj hg
    match j, hg with
    | 0, hg =>
      rw [show sampleTables[0]? = some (sampleCfg ("t1")) from rfl] at hg
      injection hg with hg
      rw [← hg]
      decide
    | 1, hg => exact absurd rfl hj
    | 2, hg =>
      rw [show sampleTables[2]? = some (sampleCfg ("t3")) from rfl] at hg
      injection hg with hg
      rw [← hg]
      decide
    | j + 3, hg =>
      rw [show sampleTables[j + 3]? = none from by
        unfold sampleTables
        rw [List.getElem?_cons_succ, List.getElem?_cons_succ, List.getElem?_cons_succ,
          List.getElem?_nil]] at hg
      exact absurd hg (by intro hh; exact Option.noConfusion hh)
  have hmain := run_pipeline_partial_failure_isolation failT2 failT2 sampleTables 1
    (sampleCfg ("t2")) rfl (by decide) hok
  exact ⟨rfl, by decide, hmain.1,
    hmain.2.1,
    hmain.2.2 0 (sampleCfg ("t1")) (by decide) rfl,
    hmain.2.2 2 (sampleCfg ("t3")) (by decide) rfl⟩

/-! ### C2: idempotence of full refresh -/

theorem all_mem_self (l : List String) : l.all (fun c => decide (c ∈ l)) = true := by
  rw [List.all_eq_true]
  intro x hx
  exact decide_eq_true hx

/-- Behaviour of one successful `load_full_refresh` call: it returns
normally with a commit-commit trace, and afterwards the committed (and
identical current) state holds the target table with exactly the
DataFrame's rows and a column list accommodating the DataFrame. -/
theorem loadFullRefresh_ok (sn tn : String) (df : DataFrame) (c0 : Conn)
    (hcompat : ∀ td, c0.current.getTable (sn, tn) = some td →
      df.cols.all (fun col => decide (col ∈ td.cols)) = true) :
    (loadFullRefresh sn tn df c0).result = .ok ∧
    (loadFullRefresh sn tn df c0).trace = [Ev.commit, Ev.commit] ∧
    ∃ tdf, (loadFullRefresh sn tn df c0).conn.committed.getTable (sn, tn) = some tdf ∧
      (loadFullRefresh sn tn df c0).conn.current = (loadFullRefresh sn tn df c0).conn.committed ∧
      tdf.rows = df.rows ∧
      df.cols.all (fun col => decide (col ∈ tdf.cols)) = true := by
  have hK : ∀ id, (c0.current.addSchema sn).getTable id = c0.current.getTable id :=
    fun id => getTable_addSchema c0.current sn id
  cases hc : c0.current.getTable (sn, tn) with
  | none =>
    have hrun : loadFullRefresh sn tn df c0 =
        ⟨.ok,
         commitConn { committed := ((c0.current.addSchema sn).setTable (sn, tn) (inferredTable df)),
                      current := ((c0.current.addSchema sn).setTable (sn, tn) (inferredTable df)).setTable (sn, tn)
                        { inferredTable df with rows := (inferredTable df).rows ++ df.rows } },
         [Ev.commit, Ev.commit]⟩ := by
      unfold loadFullRefresh createSchemaIfNotExists tableExistsQ createTableFromDataFrame insertRows
      simp only [hK, hc, Option.isSome_none, Bool.false_eq_true, if_false,
        getTable_setTable_self, inferredTable, all_mem_self, if_true, List.singleton_append]
    rw [hrun]
    refine ⟨rfl, rfl, { inferredTable df with rows := (inferredTable df).rows ++ df.rows },
      ?_, rfl, ?_, ?_⟩
    · exact getTable_setTable_self _ _ _
    · show (inferredTable df).rows ++ df.rows = df.rows
      rw [show (inferredTable df).rows = [] from rfl, List.nil_append]
    · show df.cols.all (fun col => decide (col ∈ (inferredTable df).cols)) = true
      exact all_mem_self df.cols
  | some td =>
    have hall := hcompat td hc
    have hrun : loadFullRefresh sn tn df c0 =
        ⟨.ok,
         commitConn { committed := (c0.current.addSchema sn),
                      current := ((c0.current.addSchema sn).setTable (sn, tn) { td with rows := [] }).setTable (sn, tn)
                        { td with rows := ([] : List Row) ++ df.rows } },
         [Ev.commit, Ev.commit]⟩ := by
      unfold loadFullRefresh createSchemaIfNotExists tableExistsQ truncateTable insertRows
      simp only [hK, hc, Option.isSome_some, if_true, getTable_setTable_self, hall,
        List.singleton_append]
    rw [hrun]
    refine ⟨rfl, rfl, { td with rows := ([] : List Row) ++ df.rows }, ?_, rfl, ?_, ?_⟩
    · exact getTable_setTable_self _ _ _
    · exact List.nil_append df.rows
    · exact hall

/-- C2: running `load_full_refresh` twice with the same non-empty
DataFrame (against a target whose column list, if the table already
exists, accommodates the DataFrame) succeeds both times and leaves the
committed target table holding exactly the DataFrame's rows. -/
theorem load_full_refresh_idempotent (sn tn : String) (df : DataFrame) (c0 : Conn)
    (_hne : df.rows ≠ [])
    (hcompat : ∀ td, c0.current.getTable (sn, tn) = some td →
      df.cols.all (fun col => decide (col ∈ td.cols)) = true) :
    (loadFullRefresh sn tn df c0).result = .ok ∧
    (loadFullRefresh sn tn df (loadFullRefresh sn tn df c0).conn).result = .ok ∧
    ∃ tdf,
      (loadFullRefresh sn tn df (loadFullRefresh sn tn df c0).conn).conn.committed.getTable (sn, tn)
        = some tdf ∧
      tdf.rows = df.rows := by
  obtain ⟨hr1, _, tdf1, hget1, hcur1, _, hall1⟩ := loadFullRefresh_ok sn tn df c0 hcompat
  have hcompat2 : ∀ td, (loadFullRefresh sn tn df c0).conn.current.getTable (sn, tn) = some td →
      df.cols.all (fun col => decide (col ∈ td.cols)) = true := by
    intro td htd
    rw [hcur1, hget1] at htd
    injection htd with htd
    rw [← htd]
    exact hall1
  obtain ⟨hr2, _, tdf2, hget2, _, hrows2, _⟩ :=
    loadFullRefresh_ok sn tn df (loadFullRefresh sn tn df c0).conn hcompat2
  exact ⟨hr1, hr2, tdf2, hget2, hrows2⟩

theorem load_full_refresh_idempotent_witness :
    sampleDF.rows ≠ [] ∧
    (loadFullRefresh ("bitcoin") ("prices") sampleDF emptyConn).result = .ok ∧
    (loadFullRefresh ("bitcoin") ("prices") sampleDF
      (loadFullRefresh ("bitcoin") ("prices") sampleDF emptyConn).conn).result = .ok ∧
    (∃ tdf,
      (loadFullRefresh ("bitcoin") ("prices") sampleDF
        (loadFullRefresh ("bitcoin") ("prices") sampleDF emptyConn).conn).conn.committed.getTable
        (("bitcoin"), ("prices")) = some tdf ∧
      tdf.rows = sampleDF.rows) := by
  have h := load_full_refresh_idempotent ("bitcoin") ("prices") sampleDF emptyConn
    (by decide) (by intro td htd; exact Option.noConfusion htd)
  exact ⟨by decide, h.1, h.2.1, h.2.2⟩

/-! ### C1: upsert correctness -/

/-- C1: upserting a DataFrame into an existing table that is keyed by
`unique_keys` (its unique constraint is exactly those keys, its rows'
keys are distinct and non-NULL, and its columns accommodate the
DataFrame) succeeds, and afterwards the committed target table holds
exactly: each prior row updated in every non-key column by its
key-matching staged row (if one exists), followed by the staged rows
with new keys appended in order — so the final row count is the prior
count plus the number of new-key staged rows. -/
theorem load_incremental_upsert_correctness (sn tn : String) (df : DataFrame)
    (keys : List String) (ts : Nat) (c0 : Conn) (td : TableData)
    (hkeys : keys ≠ [])
    (htd : c0.current.getTable (sn, tn) = some td)
    (hconstr : td.uniqueConstraint = some keys)
    (hcols : df.cols.all (fun col => decide (col ∈ td.cols)) = true)
    (hex : (td.rows.map (keyOf keys)).Nodup)
    (hnn : ∀ r ∈ td.rows ++ df.rows, ∀ k ∈ keys,
      (lookupCol r k).isSome = true ∧ lookupCol r k ≠ some Value.null)
    (hst : (df.rows.map (keyOf keys)).Nodup) :
    (loadIncremental sn tn df (some keys) ts c0).result = .ok ∧
    ∃ tdf,
      (loadIncremental sn tn df (some keys) ts c0).conn.committed.getTable (sn, tn) = some tdf ∧
      tdf.rows = mergedSpecRows keys td.rows df.rows ∧
      tdf.rows.length = td.rows.length + (df.rows.filter (isNewKey keys td.rows)).length := by
  have hkE : keys.isEmpty = false := by
    cases keys with
    | nil => exact absurd rfl hkeys
    | cons a l => rfl
  have hKadd : (c0.current.addSchema sn).getTable (sn, tn) = some td := by
    rw [getTable_addSchema]
    exact htd
  have hne2 : ((sn, tn) : String × String) ≠ (sn, tempTableName tn ts) := by
    intro h
    exact tempTableName_ne tn ts ((congrArg Prod.snd h).symm)
  have hrun : loadIncremental sn tn df (some keys) ts c0 =
      ⟨.ok,
       commitConn
         { committed := (c0.current.addSchema sn),
           current :=
             (((c0.current.addSchema sn).setTable (sn, tempTableName tn ts)
                 { cols := df.cols, uniqueConstraint := none, rows := df.rows }).setTable (sn, tn)
                 { td with rows := mergeRows keys td.rows df.rows }).dropTable
               (sn, tempTableName tn ts) },
       [Ev.commit, Ev.dropTable, Ev.commit]⟩ := by
    unfold loadIncremental pyTruthyKeys createSchemaIfNotExists tableExistsQ upsertData
      writeReplaceTable
    simp only [hkE, Bool.not_false, if_true, Option.getD_some,
      getTable_setTable_ne _ _ _ _ hne2, hKadd, Option.isSome_some, hconstr, hcols, hst,
      if_true, eq_self_iff_true, List.cons_append, List.nil_append, List.singleton_append]
  rw [hrun]
  refine ⟨rfl, { td with rows := mergeRows keys td.rows df.rows }, ?_, ?_, ?_⟩
  · show (((((c0.current.addSchema sn).setTable (sn, tempTableName tn ts)
        { cols := df.cols, uniqueConstraint := none, rows := df.rows }).setTable (sn, tn)
        { td with rows := mergeRows keys td.rows df.rows }).dropTable
        (sn, tempTableName tn ts)).getTable (sn, tn)) = _
    rw [getTable_dropTable_ne _ _ _ hne2, getTable_setTable_self]
  · exact mergeRows_characterization keys df.rows td.rows hst
  · show (mergeRows keys td.rows df.rows).length = _
    rw [mergeRows_characterization keys df.rows td.rows hst]
    unfold mergedSpecRows
    rw [List.length_append, List.length_map]

theorem load_incremental_upsert_correctness_witness :
    ([("id")] : List String) ≠ [] ∧
    sampleConnKeyed.current.getTable (("bitcoin"), ("prices")) = some sampleTableKeyed ∧
    sampleTableKeyed.uniqueConstraint = some [("id")] ∧
    (sampleDF.rows.map (keyOf [("id")])).Nodup ∧
    (loadIncremental ("bitcoin") ("prices") sampleDF (some [("id")]) 0 sampleConnKeyed).result
      = .ok ∧
    (∃ tdf,
      (loadIncremental ("bitcoin") ("prices") sampleDF (some [("id")]) 0
        sampleConnKeyed).conn.committed.getTable (("bitcoin"), ("prices")) = some tdf ∧
      tdf.rows = mergedSpecRows [("id")] sampleTableKeyed.rows sampleDF.rows ∧
      tdf.rows.length = sampleTableKeyed.rows.length +
        (sampleDF.rows.filter (isNewKey [("id")] sampleTableKeyed.rows)).length) := by
  have h := load_incremental_upsert_correctness ("bitcoin") ("prices") sampleDF [("id")] 0
    sampleConnKeyed sampleTableKeyed (by decide) (by decide) (by decide) (by decide)
    (by decide) (by decide) (by decide)
  exact ⟨by decide, by decide, by decide, by decide, h.1, h.2⟩

/-! ### Branch evaluation lemmas for the loaders -/

theorem loadFullRefresh_eq_create (sn tn : String) (df : DataFrame) (c0 : Conn)
    (hc : c0.current.getTable (sn, tn) = none) :
    loadFullRefresh sn tn df c0 =
      ⟨.ok,
       commitConn
         { committed := (c0.current.addSchema sn).setTable (sn, tn) (inferredTable df),
           current := ((c0.current.addSchema sn).setTable (sn, tn) (inferredTable df)).setTable (sn, tn)
             { inferredTable df with rows := (inferredTable df).rows ++ df.rows } },
       [Ev.commit, Ev.commit]⟩ := by
  unfold loadFullRefresh createSchemaIfNotExists tableExistsQ createTableFromDataFrame insertRows
  simp only [getTable_addSchema, hc, Option.isSome_none, Bool.false_eq_true, if_false,
    getTable_setTable_self, inferredTable, all_mem_self, if_true, List.singleton_append]

theorem loadFullRefresh_eq_trunc_ok (sn tn : String) (df : DataFrame) (c0 : Conn)
    (td : TableData) (hc : c0.current.getTable (sn, tn) = some td)
    (hall : df.cols.all (fun col => decide (col ∈ td.cols)) = true) :
    loadFullRefresh sn tn df c0 =
      ⟨.ok,
       commitConn
         { committed := (c0.current.addSchema sn),
           current := ((c0.current.addSchema sn).setTable (sn, tn) { td with rows := [] }).setTable (sn, tn)
             { td with rows := ([] : List Row) ++ df.rows } },
       [Ev.commit, Ev.commit]⟩ := by
  unfold loadFullRefresh createSchemaIfNotExists tableExistsQ truncateTable insertRows
  simp only [getTable_addSchema, hc, Option.isSome_some, if_true, getTable_setTable_self, hall,
    List.singleton_append]

theorem loadFullRefresh_eq_trunc_err (sn tn : String) (df : DataFrame) (c0 : Conn)
    (td : TableData) (hc : c0.current.getTable (sn, tn) = some td)
    (hall : df.cols.all (fun col => decide (col ∈ td.cols)) = false) :
    loadFullRefresh sn tn df c0 =
      ⟨.err .insertColumnMismatch,
       { committed := (c0.current.addSchema sn), current := (c0.current.addSchema sn) },
       [Ev.commit, Ev.rollback]⟩ := by
  unfold loadFullRefresh createSchemaIfNotExists tableExistsQ truncateTable insertRows rollbackConn
  simp only [getTable_addSchema, hc, Option.isSome_some, if_true, getTable_setTable_self, hall,
    Bool.false_eq_true, if_false, List.singleton_append]

/-- Every branch of `upsertData` leaves the committed state alone: the
merge works strictly inside the transaction. -/
theorem upsertData_committed (sn tn : String) (df : DataFrame) (keys : List String) (ts : Nat)
    (c1 : Conn) : (upsertData sn tn df keys ts c1).conn.committed = c1.committed := by
  simp only [upsertData, writeReplaceTable]
  split
  · rfl
  · split
    · split
      · split
        · rfl
        · rfl
      · rfl
    · rfl

/-- A successful `upsertData` has dropped its staging table (inside the
transaction) and logged exactly the drop. -/
theorem upsertData_ok_staging (sn tn : String) (df : DataFrame) (keys : List String) (ts : Nat)
    (c1 : Conn) (h : (upsertData sn tn df keys ts c1).result = .ok) :
    (upsertData sn tn df keys ts c1).conn.current.getTable (sn, tempTableName tn ts) = none ∧
    (upsertData sn tn df keys ts c1).trace = [Ev.dropTable] := by
  revert h
  simp only [upsertData, writeReplaceTable]
  split
  · intro h
    exact LoadResult.noConfusion h
  · split
    · split
      · split
        · intro _
          exact ⟨getTable_dropTable_self _ _, rfl⟩
        · intro h
          exact LoadResult.noConfusion h
      · intro h
        exact LoadResult.noConfusion h
    · intro h
      exact LoadResult.noConfusion h

/-- A failed `upsertData` logged nothing: in particular no staging-table
drop was executed. -/
theorem upsertData_err_trace (sn tn : String) (df : DataFrame) (keys : List String) (ts : Nat)
    (c1 : Conn) (e : LoadErr) (h : (upsertData sn tn df keys ts c1).result = .err e) :
    (upsertData sn tn df keys ts c1).trace = [] := by
  revert h
  simp only [upsertData, writeReplaceTable]
  split
  · intro _
    rfl
  · split
    · split
      · split
        · intro h
          exact LoadResult.noConfusion h
        · intro _
          rfl
      · intro _
        rfl
    · intro _
      rfl

theorem loadIncremental_eq_falsy (sn tn : String) (df : DataFrame) (uk : Option (List String))
    (ts : Nat) (c0 : Conn) (h : pyTruthyKeys uk = false) :
    loadIncremental sn tn df uk ts c0 =
      { result := (loadFullRefresh sn tn df c0).result,
        conn := (loadFullRefresh sn tn df c0).conn,
        trace := Ev.warnNoKeys :: (loadFullRefresh sn tn df c0).trace } := by
  unfold loadIncremental
  rw [h, if_neg Bool.false_ne_true]

theorem loadIncremental_eq_create (sn tn : String) (df : DataFrame) (uk : Option (List String))
    (ts : Nat) (c0 : Conn) (htr : pyTruthyKeys uk = true)
    (hc : c0.current.getTable (sn, tn) = none) :
    loadIncremental sn tn df uk ts c0 =
      ⟨.ok,
       commitConn
         { committed := (c0.current.addSchema sn).setTable (sn, tn) (inferredTable df),
           current := ((c0.current.addSchema sn).setTable (sn, tn) (inferredTable df)).setTable (sn, tn)
             { inferredTable df with rows := (inferredTable df).rows ++ df.rows } },
       [Ev.commit, Ev.commit]⟩ := by
  unfold loadIncremental createSchemaIfNotExists tableExistsQ createTableFromDataFrame insertRows
  simp only [htr, if_true, getTable_addSchema, hc, Option.isSome_none, Bool.false_eq_true,
    if_false, getTable_setTable_self, inferredTable, all_mem_self, List.singleton_append]

theorem loadIncremental_eq_upsert_ok (sn tn : String) (df : DataFrame) (uk : Option (List String))
    (ts : Nat) (c0 : Conn) (td : TableData) (htr : pyTruthyKeys uk = true)
    (hc : c0.current.getTable (sn, tn) = some td)
    (hok : (upsertData sn tn df (uk.getD []) ts
      { committed := c0.current.addSchema sn, current := c0.current.addSchema sn }).result = .ok) :
    loadIncremental sn tn df uk ts c0 =
      ⟨.ok,
       commitConn (upsertData sn tn df (uk.getD []) ts
         { committed := c0.current.addSchema sn, current := c0.current.addSchema sn }).conn,
       Ev.commit :: (upsertData sn tn df (uk.getD []) ts
         { committed := c0.current.addSchema sn, current := c0.current.addSchema sn }).trace
         ++ [Ev.commit]⟩ := by
  unfold loadIncremental createSchemaIfNotExists tableExistsQ
  simp only [htr, if_true, getTable_addSchema, hc, Option.isSome_some, hok,
    List.singleton_append, List.cons_append, List.nil_append]

theorem loadIncremental_eq_upsert_err (sn tn : String) (df : DataFrame) (uk : Option (List String))
    (ts : Nat) (c0 : Conn) (td : TableData) (e : LoadErr) (htr : pyTruthyKeys uk = true)
    (hc : c0.current.getTable (sn, tn) = some td)
    (herr : (upsertData sn tn df (uk.getD []) ts
      { committed := c0.current.addSchema sn, current := c0.current.addSchema sn }).result = .err e) :
    loadIncremental sn tn df uk ts c0 =
      ⟨.err e,
       rollbackConn (upsertData sn tn df (uk.getD []) ts
         { committed := c0.current.addSchema sn, current := c0.current.addSchema sn }).conn,
       Ev.commit :: (upsertData sn tn df (uk.getD []) ts
         { committed := c0.current.addSchema sn, current := c0.current.addSchema sn }).trace
         ++ [Ev.rollback]⟩ := by
  unfold loadIncremental createSchemaIfNotExists tableExistsQ
  simp only [htr, if_true, getTable_addSchema, hc, Option.isSome_some, herr,
    List.singleton_append, List.cons_append, List.nil_append]

/-- `load_full_refresh` only ever touches the target table: a table id
other than the target that is absent before the call (in both the
committed and the transaction view) is still absent afterwards, whatever
the outcome. -/
theorem loadFullRefresh_preserves_absent (sn tn : String) (df : DataFrame) (c0 : Conn)
    (id2 : String × String) (hid : id2 ≠ (sn, tn))
    (hcc : c0.current.getTable id2 = none) (_hco : c0.committed.getTable id2 = none) :
    (loadFullRefresh sn tn df c0).conn.current.getTable id2 = none ∧
    (loadFullRefresh sn tn df c0).conn.committed.getTable id2 = none := by
  have hadd : (c0.current.addSchema sn).getTable id2 = none := by
    rw [getTable_addSchema]
    exact hcc
  cases hc : c0.current.getTable (sn, tn) with
  | none =>
    rw [loadFullRefresh_eq_create sn tn df c0 hc]
    constructor <;>
      · show ((((c0.current.addSchema sn).setTable (sn, tn) (inferredTable df)).setTable (sn, tn)
          { inferredTable df with rows := (inferredTable df).rows ++ df.rows }).getTable id2) = none
        rw [getTable_setTable_ne _ _ _ _ hid, getTable_setTable_ne _ _ _ _ hid]
        exact hadd
  | some td =>
    cases hall : df.cols.all (fun col => decide (col ∈ td.cols)) with
    | true =>
      rw [loadFullRefresh_eq_trunc_ok sn tn df c0 td hc hall]
      constructor <;>
        · show ((((c0.current.addSchema sn).setTable (sn, tn) { td with rows := [] }).setTable (sn, tn)
            { td with rows := ([] : List Row) ++ df.rows }).getTable id2) = none
          rw [getTable_setTable_ne _ _ _ _ hid, getTable_setTable_ne _ _ _ _ hid]
          exact hadd
    | false =>
      rw [loadFullRefresh_eq_trunc_err sn tn df c0 td hc hall]
      exact ⟨hadd, hadd⟩

/-! ### C4: staging table cleanup -/

/-- C4 counterexample: in a failing upsert (here: the target table has
no unique constraint, so the `ON CONFLICT` merge raises) the staging
table is NOT dropped — the trace of the failing `load_incremental` run
contains no drop event, the drop statement being unreachable after the
exception — yet no staging table remains, because the rollback discards
the uncommitted staging DDL. -/
theorem staging_drop_skipped_on_failure :
    (loadIncremental ("bitcoin") ("prices") sampleDF (some [("id")]) 0 sampleConnBare).result
      = .err .onConflictNoMatchingConstraint ∧
    Ev.dropTable ∉
      (loadIncremental ("bitcoin") ("prices") sampleDF (some [("id")]) 0 sampleConnBare).trace ∧
    (loadIncremental ("bitcoin") ("prices") sampleDF (some [("id")]) 0
      sampleConnBare).conn.current.getTable (("bitcoin"), tempTableName ("prices") 0) = none ∧
    (loadIncremental ("bitcoin") ("prices") sampleDF (some [("id")]) 0
      sampleConnBare).conn.committed.getTable (("bitcoin"), tempTableName ("prices") 0) = none := by
  decide

/-- C4 amended: after any `load_incremental` call — success or failure —
no staging table remains, in the committed state or in the transaction
view: on success the staging table is explicitly dropped before the
final commit (the drop event is in the trace), while on failure the drop
is skipped and the rollback removes the uncommitted staging table. -/
theorem load_incremental_staging_cleanup (sn tn : String) (df : DataFrame)
    (uk : Option (List String)) (ts : Nat) (c0 : Conn)
    (hcur : c0.current.getTable (sn, tempTableName tn ts) = none)
    (hcom : c0.committed.getTable (sn, tempTableName tn ts) = none) :
    (loadIncremental sn tn df uk ts c0).conn.current.getTable (sn, tempTableName tn ts) = none ∧
    (loadIncremental sn tn df uk ts c0).conn.committed.getTable (sn, tempTableName tn ts)
      = none ∧
    (pyTruthyKeys uk = true → tableExistsQ sn tn c0 = true →
      (loadIncremental sn tn df uk ts c0).result = .ok →
      Ev.dropTable ∈ (loadIncremental sn tn df uk ts c0).trace) := by
  have hid : ((sn, tempTableName tn ts) : String × String) ≠ (sn, tn) :=
    fun h => tempTableName_ne tn ts (congrArg Prod.snd h)
  have hadd : (c0.current.addSchema sn).getTable (sn, tempTableName tn ts) = none := by
    rw [getTable_addSchema]
    exact hcur
  cases htr : pyTruthyKeys uk with
  | false =>
    rw [loadIncremental_eq_falsy sn tn df uk ts c0 htr]
    have hp := loadFullRefresh_preserves_absent sn tn df c0 (sn, tempTableName tn ts) hid hcur hcom
    refine ⟨hp.1, hp.2, ?_⟩
    intro htruthy _ _
    exact absurd htruthy Bool.false_ne_true
  | true =>
    cases hc : c0.current.getTable (sn, tn) with
    | none =>
      rw [loadIncremental_eq_create sn tn df uk ts c0 htr hc]
      refine ⟨?_, ?_, ?_⟩
      · show ((((c0.current.addSchema sn).setTable (sn, tn) (inferredTable df)).setTable (sn, tn)
          { inferredTable df with rows := (inferredTable df).rows ++ df.rows }).getTable
          (sn, tempTableName tn ts)) = none
        rw [getTable_setTable_ne _ _ _ _ hid, getTable_setTable_ne _ _ _ _ hid]
        exact hadd
      · show ((((c0.current.addSchema sn).setTable (sn, tn) (inferredTable df)).setTable (sn, tn)
          { inferredTable df with rows := (inferredTable df).rows ++ df.rows }).getTable
          (sn, tempTableName tn ts)) = none
        rw [getTable_setTable_ne _ _ _ _ hid, getTable_setTable_ne _ _ _ _ hid]
        exact hadd
      · intro _ hex _
        unfold tableExistsQ at hex
        rw [hc] at hex
        exact absurd hex (by decide)
    | some td =>
      cases hres : (upsertData sn tn df (uk.getD []) ts
          { committed := c0.current.addSchema sn, current := c0.current.addSchema sn }).result with
      | ok =>
        rw [loadIncremental_eq_upsert_ok sn tn df uk ts c0 td htr hc hres]
        have hst := upsertData_ok_staging sn tn df (uk.getD []) ts
          { committed := c0.current.addSchema sn, current := c0.current.addSchema sn } hres
        refine ⟨hst.1, hst.1, ?_⟩
        intro _ _ _
        show Ev.dropTable ∈ Ev.commit :: (upsertData sn tn df (uk.getD []) ts
          { committed := c0.current.addSchema sn, current := c0.current.addSchema sn }).trace
          ++ [Ev.commit]
        rw [hst.2]
        exact List.mem_cons_of_mem _ (List.mem_cons_self _ _)
      | err e =>
        rw [loadIncremental_eq_upsert_err sn tn df uk ts c0 td e htr hc hres]
        have hcm := upsertData_committed sn tn df (uk.getD []) ts
          { committed := c0.current.addSchema sn, current := c0.current.addSchema sn }
        refine ⟨?_, ?_, ?_⟩
        · show ((upsertData sn tn df (uk.getD []) ts
            { committed := c0.current.addSchema sn,
              current := c0.current.addSchema sn }).conn.committed.getTable
            (sn, tempTableName tn ts)) = none
          rw [hcm]
          exact hadd
        · show ((upsertData sn tn df (uk.getD []) ts
            { committed := c0.current.addSchema sn,
              current := c0.current.addSchema sn }).conn.committed.getTable
            (sn, tempTableName tn ts)) = none
          rw [hcm]
          exact hadd
        · intro _ _ hok
          exact LoadResult.noConfusion hok

theorem load_incremental_staging_cleanup_witness :
    sampleConnKeyed.current.getTable (("bitcoin"), tempTableName ("prices") 0) = none ∧
    sampleConnKeyed.committed.getTable (("bitcoin"), tempTableName ("prices") 0) = none ∧
    (loadIncremental ("bitcoin") ("prices") sampleDF (some [("id")]) 0
      sampleConnKeyed).conn.current.getTable (("bitcoin"), tempTableName ("prices") 0) = none ∧
    (loadIncremental ("bitcoin") ("prices") sampleDF (some [("id")]) 0
      sampleConnKeyed).conn.committed.getTable (("bitcoin"), tempTableName ("prices") 0)
      = none ∧
    Ev.dropTable ∈
      (loadIncremental ("bitcoin") ("prices") sampleDF (some [("id")]) 0 sampleConnKeyed).trace := by
  have h := load_incremental_staging_cleanup ("bitcoin") ("prices") sampleDF (some [("id")]) 0
    sampleConnKeyed (by decide) (by decide)
  exact ⟨by decide, by decide, h.1, h.2.1, h.2.2 (by decide) (by decide) (by decide)⟩

/-! ### C5: transaction discipline -/

/-- C5 counterexample: a successful `load_full_refresh` call does not
commit once — it commits twice, once inside the schema-existence step
and once at the end of the load body. -/
theorem load_full_refresh_commits_twice :
    (loadFullRefresh ("bitcoin") ("prices") sampleDF emptyConn).result = .ok ∧
    (loadFullRefresh ("bitcoin") ("prices") sampleDF emptyConn).trace.count Ev.commit = 2 := by
  decide

/-- C5 amended: on a clean connection, each load call commits twice on
success (the schema step and the end of the load body) and never rolls
back; any exception in the load body triggers an explicit rollback
before the error propagates — after only the one schema commit — and
leaves the committed target table exactly as it was before the call,
with no uncommitted work pending. -/
theorem load_transaction_discipline (sn tn : String) (df : DataFrame)
    (uk : Option (List String)) (ts : Nat) (c0 : Conn)
    (hclean : c0.current = c0.committed) :
    ((loadFullRefresh sn tn df c0).result = .ok →
      (loadFullRefresh sn tn df c0).trace.count Ev.commit = 2 ∧
      Ev.rollback ∉ (loadFullRefresh sn tn df c0).trace) ∧
    (∀ e, (loadFullRefresh sn tn df c0).result = .err e →
      Ev.rollback ∈ (loadFullRefresh sn tn df c0).trace ∧
      (loadFullRefresh sn tn df c0).trace.count Ev.commit = 1 ∧
      (loadFullRefresh sn tn df c0).conn.committed.getTable (sn, tn)
        = c0.committed.getTable (sn, tn) ∧
      (loadFullRefresh sn tn df c0).conn.current = (loadFullRefresh sn tn df c0).conn.committed) ∧
    ((loadIncremental sn tn df uk ts c0).result = .ok →
      (loadIncremental sn tn df uk ts c0).trace.count Ev.commit = 2 ∧
      Ev.rollback ∉ (loadIncremental sn tn df uk ts c0).trace) ∧
    (∀ e, (loadIncremental sn tn df uk ts c0).result = .err e →
      Ev.rollback ∈ (loadIncremental sn tn df uk ts c0).trace ∧
      (loadIncremental sn tn df uk ts c0).trace.count Ev.commit = 1 ∧
      (loadIncremental sn tn df uk ts c0).conn.committed.getTable (sn, tn)
        = c0.committed.getTable (sn, tn) ∧
      (loadIncremental sn tn df uk ts c0).conn.current
        = (loadIncremental sn tn df uk ts c0).conn.committed) := by
  have hFR : ((loadFullRefresh sn tn df c0).result = .ok →
      (loadFullRefresh sn tn df c0).trace = [Ev.commit, Ev.commit]) ∧
      (∀ e, (loadFullRefresh sn tn df c0).result = .err e →
        (loadFullRefresh sn tn df c0).trace = [Ev.commit, Ev.rollback] ∧
        (loadFullRefresh sn tn df c0).conn.committed.getTable (sn, tn)
          = c0.committed.getTable (sn, tn) ∧
        (loadFullRefresh sn tn df c0).conn.current
          = (loadFullRefresh sn tn df c0).conn.committed) := by
    cases hc : c0.current.getTable (sn, tn) with
    | none =>
      rw [loadFullRefresh_eq_create sn tn df c0 hc]
      exact ⟨fun _ => rfl, fun e h => LoadResult.noConfusion h⟩
    | some td =>
      cases hall : df.cols.all (fun col => decide (col ∈ td.cols)) with
      | true =>
        rw [loadFullRefresh_eq_trunc_ok sn tn df c0 td hc hall]
        exact ⟨fun _ => rfl, fun e h => LoadResult.noConfusion h⟩
      | false =>
        rw [loadFullRefresh_eq_trunc_err sn tn df c0 td hc hall]
        refine ⟨fun h => LoadResult.noConfusion h, fun e _ => ⟨rfl, ?_, rfl⟩⟩
        show (c0.current.addSchema sn).getTable (sn, tn) = c0.committed.getTable (sn, tn)
        rw [getTable_addSchema, hclean]
  refine ⟨?_, ?_, ?_, ?_⟩
  · intro h
    rw [hFR.1 h]
    exact ⟨by decide, by decide⟩
  · intro e h
    obtain ⟨ht, hg, hcc⟩ := hFR.2 e h
    rw [ht]
    exact ⟨by decide, by decide, hg, hcc⟩
  · -- incremental, success
    cases htr : pyTruthyKeys uk with
    | false =>
      rw [loadIncremental_eq_falsy sn tn df uk ts c0 htr]
      intro h
      show (Ev.warnNoKeys :: (loadFullRefresh sn tn df c0).trace).count Ev.commit = 2 ∧
        Ev.rollback ∉ Ev.warnNoKeys :: (loadFullRefresh sn tn df c0).trace
      rw [hFR.1 h]
      exact ⟨by decide, by decide⟩
    | true =>
      cases hc : c0.current.getTable (sn, tn) with
      | none =>
        rw [loadIncremental_eq_create sn tn df uk ts c0 htr hc]
        intro _
        show ([Ev.commit, Ev.commit] : Trace).count Ev.commit = 2 ∧
          Ev.rollback ∉ ([Ev.commit, Ev.commit] : Trace)
        exact ⟨by decide, by decide⟩
      | some td =>
        cases hres : (upsertData sn tn df (uk.getD []) ts
            { committed := c0.current.addSchema sn, current := c0.current.addSchema sn }).result with
        | ok =>
          rw [loadIncremental_eq_upsert_ok sn tn df uk ts c0 td htr hc hres]
          intro _
          have hst := upsertData_ok_staging sn tn df (uk.getD []) ts
            { committed := c0.current.addSchema sn, current := c0.current.addSchema sn } hres
          show (Ev.commit :: (upsertData sn tn df (uk.getD []) ts
            { committed := c0.current.addSchema sn,
              current := c0.current.addSchema sn }).trace ++ [Ev.commit]).count Ev.commit = 2 ∧
            Ev.rollback ∉ Ev.commit :: (upsertData sn tn df (uk.getD []) ts
              { committed := c0.current.addSchema sn,
                current := c0.current.addSchema sn }).trace ++ [Ev.commit]
          rw [hst.2]
          exact ⟨by decide, by decide⟩
        | err e2 =>
          rw [loadIncremental_eq_upsert_err sn tn df uk ts c0 td e2 htr hc hres]
          intro h
          exact LoadResult.noConfusion h
  · -- incremental, failure
    cases htr : pyTruthyKeys uk with
    | false =>
      rw [loadIncremental_eq_falsy sn tn df uk ts c0 htr]
      intro e h
      obtain ⟨ht, hg, hcc⟩ := hFR.2 e h
      refine ⟨?_, ?_, hg, hcc⟩
      · show Ev.rollback ∈ Ev.warnNoKeys :: (loadFullRefresh sn tn df c0).trace
        rw [ht]
        decide
      · show (Ev.warnNoKeys :: (loadFullRefresh sn tn df c0).trace).count Ev.commit = 1
        rw [ht]
        decide
    | true =>
      cases hc : c0.current.getTable (sn, tn) with
      | none =>
        rw [loadIncremental_eq_create sn tn df uk ts c0 htr hc]
        intro e h
        exact LoadResult.noConfusion h
      | some td =>
        cases hres : (upsertData sn tn df (uk.getD []) ts
            { committed := c0.current.addSchema sn, current := c0.current.addSchema sn }).result with
        | ok =>
          rw [loadIncremental_eq_upsert_ok sn tn df uk ts c0 td htr hc hres]
          intro e h
          exact LoadResult.noConfusion h
        | err e2 =>
          rw [loadIncremental_eq_upsert_err sn tn df uk ts c0 td e2 htr hc hres]
          intro e _
          have hetr := upsertData_err_trace sn tn df (uk.getD []) ts
            { committed := c0.current.addSchema sn, current := c0.current.addSchema sn } e2 hres
          have hcm := upsertData_committed sn tn df (uk.getD []) ts
            { committed := c0.current.addSchema sn, current := c0.current.addSchema sn }
          refine ⟨?_, ?_, ?_, rfl⟩
          · show Ev.rollback ∈ Ev.commit :: (upsertData sn tn df (uk.getD []) ts
              { committed := c0.current.addSchema sn,
                current := c0.current.addSchema sn }).trace ++ [Ev.rollback]
            rw [hetr]
            exact List.mem_cons_of_mem _ (List.mem_cons_self _ _)
          · show (Ev.commit :: (upsertData sn tn df (uk.getD []) ts
              { committed := c0.current.addSchema sn,
                current := c0.current.addSchema sn }).trace ++ [Ev.rollback]).count Ev.commit = 1
            rw [hetr]
            decide
          · show ((upsertData sn tn df (uk.getD []) ts
              { committed := c0.current.addSchema sn,
                current := c0.current.addSchema sn }).conn.committed.getTable (sn, tn))
              = c0.committed.getTable (sn, tn)
            rw [hcm]
            show (c0.current.addSchema sn).getTable (sn, tn) = c0.committed.getTable (sn, tn)
            rw [getTable_addSchema, hclean]

theorem load_transaction_discipline_witness :
    sampleConnBare.current = sampleConnBare.committed ∧
    (loadFullRefresh ("bitcoin") ("prices") sampleDF sampleConnBare).result = .ok ∧
    (loadFullRefresh ("bitcoin") ("prices") sampleDF sampleConnBare).trace.count Ev.commit = 2 ∧
    Ev.rollback ∈
      (loadIncremental ("bitcoin") ("prices") sampleDF (some [("id")]) 0 sampleConnBare).trace ∧
    (loadIncremental ("bitcoin") ("prices") sampleDF (some [("id")]) 0
      sampleConnBare).conn.committed.getTable (("bitcoin"), ("prices"))
      = sampleConnBare.committed.getTable (("bitcoin"), ("prices")) := by
  have h := load_transaction_discipline ("bitcoin") ("prices") sampleDF (some [("id")]) 0
    sampleConnBare rfl
  have hferr := h.2.2.2 LoadErr.onConflictNoMatchingConstraint (by decide)
  exact ⟨rfl, by decide, (h.1 (by decide)).1, hferr.1, hferr.2.2.1⟩

end BitcoinDW
